import Mathlib

/-!
Shallow embedding of the synchronization engine of the RFCP study-progress
tracker (`src/js/sync-manager.js`) together with theorems settling the
specification claims about it.

Modelling conventions:
* A JavaScript progress snapshot object is a `JsSnapshot`.  The `completedIds`
  field may be absent (`none`), matching the `!x.completedIds` checks in the
  source; `completionDates` is a JS object modelled as an association list with
  the keys in insertion order (JS object keys are unique); `lastModified` is an
  optional ISO string field.  A possibly-absent (null/undefined) snapshot value
  is an `Option JsSnapshot`.
* `new Date(s)` applied to the ISO `YYYY-MM-DD` date strings used by the
  program is modelled by `jsDateParse`, returning the epoch-millisecond value,
  or `none` for strings that produce an invalid date.  The JS comparison
  `new Date(a) > new Date(b)` (false whenever either side is invalid) is
  `dateGT`.
* Network-facing methods are modelled as state-passing functions over a
  `SyncState`, consuming an oracle tape of `HttpResp` responses (one per
  request issued, in order) and recording every issued request in a trace of
  `NetOp` events.  JSON (de)serialisation of gist file contents is abstracted:
  a gist carries its parsed snapshot directly.  Thrown JS errors are
  `Except.error` with the source's message text.
-/

/-- `listStartsWith hay needle` is true when `needle` is a prefix of `hay`. -/
def listStartsWith : List Char → List Char → Bool
  | _, [] => true
  | [], _ :: _ => false
  | a :: as, b :: bs => a == b && listStartsWith as bs

/-- `listHasSub hay needle`: `needle` occurs contiguously inside `hay`. -/
def listHasSub (hay needle : List Char) : Bool :=
  match hay with
  | [] => listStartsWith [] needle
  | _ :: rest => listStartsWith hay needle || listHasSub rest needle

/-- ASCII lower-casing of one character (sufficient for the ASCII strings the
program compares case-insensitively). -/
def charLower (c : Char) : Char :=
  if 'A' ≤ c ∧ c ≤ 'Z' then Char.ofNat (c.toNat + 32) else c

/-- Case-insensitive substring test, modelling the regex test
`/rate limit/i.test(msg)` from `_parseRateLimitInfo`. -/
def strContainsCI (hay needle : String) : Bool :=
  listHasSub (hay.toList.map charLower) (needle.toList.map charLower)

/-- Drop leading whitespace characters. -/
def dropWhileWS : List Char → List Char
  | [] => []
  | c :: cs => if c.isWhitespace then dropWhileWS cs else c :: cs

/-- Models `String.prototype.trim()`: strip whitespace from both ends. -/
def jsTrim (s : String) : String :=
  String.mk (dropWhileWS (dropWhileWS s.toList).reverse).reverse

/-- Models `Number(s)` on the non-empty all-digit strings that appear in the
`x-ratelimit-reset` header (other inputs would be `NaN`, here `none`). -/
def jsNumber (s : String) : Option Nat :=
  let cs := s.toList
  if cs ≠ [] ∧ cs.all Char.isDigit then
    some (cs.foldl (fun n c => n * 10 + (c.toNat - 48)) 0)
  else none

/-- Leap-year test (Gregorian). -/
def isLeapYear (y : Nat) : Bool :=
  (y % 4 == 0 && y % 100 != 0) || y % 400 == 0

/-- Number of leap years in `[1, n]`. -/
def leapCount (n : Nat) : Nat := n / 4 - n / 100 + n / 400

/-- Days from 1970-01-01 to the start of year `y` (for `y ≥ 1970`). -/
def daysBeforeYear (y : Nat) : Nat :=
  365 * (y - 1970) + (leapCount (y - 1) - leapCount 1969)

/-- Days from the start of the year to the start of month `m` (1-based). -/
def daysBeforeMonth (leap : Bool) (m : Nat) : Nat :=
  [0, 31, 59, 90, 120, 151, 181, 212, 243, 273, 304, 334].getD (m - 1) 0 +
    (if leap && m > 2 then 1 else 0)

/-- Length of month `m` of year `y`. -/
def daysInMonth (y m : Nat) : Nat :=
  if m = 2 then (if isLeapYear y then 29 else 28)
  else if m = 4 ∨ m = 6 ∨ m = 9 ∨ m = 11 then 30
  else 31

/-- Numeric value of a digit character. -/
def digitVal (c : Char) : Nat := c.toNat - 48

/-- Models `new Date(s).valueOf()` for the ISO `YYYY-MM-DD` date strings
(UTC midnight) used by the program; strings outside this shape (or with an
out-of-range month/day, or a year before 1970) yield `none`, standing for an
invalid date. -/
def jsDateParse (s : String) : Option Int :=
  match s.toList with
  | [y1, y2, y3, y4, '-', m1, m2, '-', d1, d2] =>
    if [y1, y2, y3, y4, m1, m2, d1, d2].all Char.isDigit then
      let y := digitVal y1 * 1000 + digitVal y2 * 100 + digitVal y3 * 10 + digitVal y4
      let m := digitVal m1 * 10 + digitVal m2
      let d := digitVal d1 * 10 + digitVal d2
      if 1970 ≤ y ∧ 1 ≤ m ∧ m ≤ 12 ∧ 1 ≤ d ∧ d ≤ daysInMonth y m then
        some ((daysBeforeYear y + daysBeforeMonth (isLeapYear y) m + (d - 1) : Nat) * 86400000)
      else none
    else none
  | _ => none

/-- Models `new Date(a) > new Date(b)`: numeric comparison of the two time
values, false whenever either one is invalid (`NaN` comparisons are false). -/
def dateGT (a b : String) : Bool :=
  match jsDateParse a, jsDateParse b with
  | some x, some y => x > y
  | _, _ => false

/-- Worker for `jsSetOf`: insert elements left to right, skipping any element
already seen (exactly how a JS `Set` is populated). -/
def jsSetGo : List String → List String → List String
  | [], _ => []
  | x :: xs, seen => if x ∈ seen then jsSetGo xs seen else x :: jsSetGo xs (x :: seen)

/-- Models `[...new Set(l)]`: first-occurrence deduplication preserving
insertion order. -/
def jsSetOf (l : List String) : List String := jsSetGo l []

/-- Lookup in a JS object modelled as an association list
(`obj[k]`, `undefined` ↦ `none`). -/
def jsGet : List (String × String) → String → Option String
  | [], _ => none
  | (k', v) :: rest, k => if k' = k then some v else jsGet rest k

/-- Property assignment `obj[k] = v` on a JS object: replace the entry in
place if the key exists (object keys are unique), otherwise append it. -/
def objSet : List (String × String) → String → String → List (String × String)
  | [], k, v => [(k, v)]
  | (k', v') :: rest, k, v =>
    if k' = k then (k, v) :: rest else (k', v') :: objSet rest k v

/-- One iteration of the `completionDates` merge loop of `mergeProgress`:
`if (!mergedDates[id] || new Date(date) > new Date(mergedDates[id]))
mergedDates[id] = date;` (a present empty-string entry is falsy). -/
def mergeDatesStep (m : List (String × String)) (e : String × String) :
    List (String × String) :=
  match jsGet m e.1 with
  | none => objSet m e.1 e.2
  | some d => if d = "" ∨ dateGT e.2 d then objSet m e.1 e.2 else m

/-- A progress snapshot object.  `completedIds = none` models an object with
no `completedIds` field; `completionDates` models the (always-present, possibly
empty) dates object; `lastModified = none` models absence of the field. -/
structure JsSnapshot where
  completedIds : Option (List String)
  completionDates : List (String × String)
  lastModified : Option String
deriving DecidableEq

/-- The empty snapshot `{completedIds: [], completionDates: {}}`. -/
def emptySnapshot : JsSnapshot := ⟨some [], [], none⟩

/-- `SyncManager.mergeProgress(local, remote)` (src/js/sync-manager.js
lines 599–629): return `local` if `remote` is absent or lacks `completedIds`;
return `remote` if `local` is absent or lacks `completedIds`; otherwise union
the id lists via `new Set` and merge the date maps starting from a copy of
`remote.completionDates`, the loop overwriting with the local date when the
existing entry is falsy or the local date is strictly later. -/
def mergeProgress (lo re : Option JsSnapshot) : Option JsSnapshot :=
  match re with
  | none => lo
  | some r =>
    match r.completedIds with
    | none => lo
    | some rids =>
      match lo with
      | none => re
      | some l =>
        match l.completedIds with
        | none => re
        | some lids =>
          some { completedIds := some (jsSetOf (lids ++ rids)),
                 completionDates := l.completionDates.foldl mergeDatesStep r.completionDates,
                 lastModified := none }

/-- Models `saveRemoteProgress`'s stamping
`const dataWithTimestamp = { ...data, lastModified: new Date().toISOString() }`
(spreading an absent object yields an object with only the fresh field). -/
def dataWithTimestamp (data : Option JsSnapshot) (nowIso : String) : JsSnapshot :=
  { (data.getD ⟨none, [], none⟩) with lastModified := some nowIso }

/-- A gist as seen through the store client: its id, description, whether a
`rfcp-progress.json` file is present, and that file's (parsed) content. -/
structure GistInfo where
  id : String
  description : String
  hasProgressFile : Bool
  content : JsSnapshot
deriving DecidableEq

/-- A network request issued by the sync manager.  `getUser` is the dedicated
credential-check endpoint (`GET /user`); the manager class itself never issues
it (only the settings page's test button does). -/
inductive NetOp where
  | getUser : NetOp
  | listGists : NetOp
  | getGist : String → NetOp
  | createReq : JsSnapshot → NetOp
  | patchGist : String → JsSnapshot → NetOp
deriving DecidableEq

/-- The payload of a successful response. -/
inductive Payload where
  | gists : List GistInfo → Payload
  | gist : GistInfo → Payload
deriving DecidableEq

/-- An HTTP response from the oracle tape: either success with a payload, or
failure with a status code, the `message` of the parsed JSON body (the
surrounding JSON is abstracted), and the optional `x-ratelimit-reset` header
(seconds). -/
inductive HttpResp where
  | success : Payload → HttpResp
  | failure : Nat → String → Option String → HttpResp
deriving DecidableEq

/-- The mutable instance state of `SyncManager` (localStorage writes mirror
these fields and are not modelled separately). `rateLimitedUntil` is the
`_rateLimitedUntil` date as epoch milliseconds. -/
structure SyncState where
  gistId : Option String
  token : Option String
  syncEnabled : Bool
  lastSync : Option String
  syncInProgress : Bool
  rateLimitedUntil : Option Int
deriving DecidableEq

instance {ε α : Type} [DecidableEq ε] [DecidableEq α] : DecidableEq (Except ε α) :=
  fun x y =>
    match x, y with
    | .ok a, .ok b =>
      if h : a = b then .isTrue (by rw [h]) else .isFalse (by simp [h])
    | .error a, .error b =>
      if h : a = b then .isTrue (by rw [h]) else .isFalse (by simp [h])
    | .ok _, .error _ => .isFalse (by simp)
    | .error _, .ok _ => .isFalse (by simp)

/-- Result of running one (async) method: the returned value or thrown error,
the updated instance state, the remaining response tape, and the trace of
network requests the method issued. -/
structure ExecResult (α : Type) where
  out : Except String α
  st : SyncState
  tape : List HttpResp
  trace : List NetOp
deriving DecidableEq

/-- Result of `_parseRateLimitInfo`: the classification and the reset date
(epoch ms) read from the header. -/
structure RateLimitInfo where
  isRateLimit : Bool
  resetDate : Option Int
deriving DecidableEq

namespace SyncManager

/-- `SyncManager._parseRateLimitInfo` (lines 227–242): a response is a
rate-limit signal when the body message matches `/rate limit/i`, or the status
is 429, or it is 403 with a rate-limit message; the reset date comes from the
`x-ratelimit-reset` header (seconds × 1000) when the header is present,
truthy, and numeric. -/
def parseRateLimitInfo (status : Nat) (msg : String) (resetHeader : Option String) :
    RateLimitInfo :=
  let isRL := strContainsCI msg "rate limit" || status == 429 ||
    (status == 403 && strContainsCI msg "rate limit")
  let rd : Option Int :=
    match resetHeader with
    | none => none
    | some h =>
      if h = "" then none
      else
        match jsNumber h with
        | none => none
        | some n => some ((n : Int) * 1000)
  ⟨isRL, rd⟩

/-- `SyncManager._setRateLimited` (lines 244–252):
`this._rateLimitedUntil = resetDate || this._rateLimitedUntil || null`
(a `Date` object is always truthy, so a present argument always wins and an
absent one keeps the previous value). -/
def setRateLimited (st : SyncState) (resetDate : Option Int) : SyncState :=
  { st with rateLimitedUntil :=
      match resetDate with
      | some d => some d
      | none => st.rateLimitedUntil }

/-- `SyncManager._clearRateLimit` (lines 254–257). -/
def clearRateLimit (st : SyncState) : SyncState :=
  { st with rateLimitedUntil := none }

/-- `SyncManager.fetchGists` (lines 341–367): GET the gist listing; on failure
classify the response, record the rate limit and throw `Rate limit excedido`,
or throw a generic error; on success clear the rate-limit state. -/
def fetchGists (st : SyncState) (tape : List HttpResp) :
    ExecResult (List GistInfo) :=
  let k : Except String (List GistInfo) × SyncState × List HttpResp :=
    match tape with
    | [] => (.error "sem resposta", st, [])
    | .success (.gists gs) :: rest => (.ok gs, clearRateLimit st, rest)
    | .success (.gist _) :: rest => (.error "payload inesperado", st, rest)
    | .failure status msg hdr :: rest =>
      let info := parseRateLimitInfo status msg hdr
      if info.isRateLimit then
        (.error "Rate limit excedido", setRateLimited st info.resetDate, rest)
      else
        (.error ("Erro ao buscar gists: " ++ toString status), st, rest)
  ⟨k.1, k.2.1, k.2.2, [.listGists]⟩

/-- The gist-search predicate used by `ensureGistExists` and `createGist`:
`g.description === 'RFCP Study Tracker - Progress Data' && g.files &&
g.files['rfcp-progress.json']`. -/
def findExistingGist (gs : List GistInfo) : Option GistInfo :=
  gs.find? (fun g =>
    g.description == "RFCP Study Tracker - Progress Data" && g.hasProgressFile)

/-- The POST half of `SyncManager.createGist` (lines 393–428): issue the
creation request and handle rate-limit / generic failures. -/
def createGistPost (st : SyncState) (tape : List HttpResp) (payload : JsSnapshot) :
    ExecResult GistInfo :=
  let k : Except String GistInfo × SyncState × List HttpResp :=
    match tape with
    | [] => (.error "sem resposta", st, [])
    | .success (.gist g) :: rest => (.ok g, clearRateLimit st, rest)
    | .success (.gists _) :: rest => (.error "payload inesperado", st, rest)
    | .failure status msg hdr :: rest =>
      let info := parseRateLimitInfo status msg hdr
      if info.isRateLimit then
        (.error "Rate limit excedido", setRateLimited st info.resetDate, rest)
      else
        (.error ("Erro ao criar gist: " ++ toString status), st, rest)
  ⟨k.1, k.2.1, k.2.2, [.createReq payload]⟩

/-- `SyncManager.createGist` (lines 370–428): build the initial empty snapshot
stamped with the current time; re-list the gists once (race avoidance) and
return an existing matching gist if found, *ignoring any listing failure*;
otherwise POST the new gist. -/
def createGist (st : SyncState) (tape : List HttpResp) (nowIso : String) :
    ExecResult GistInfo :=
  let initialData : JsSnapshot := ⟨some [], [], some nowIso⟩
  let fg := fetchGists st tape
  match fg.out with
  | .ok gs =>
    match findExistingGist gs with
    | some g => ⟨.ok g, fg.st, fg.tape, fg.trace⟩
    | none =>
      let c := createGistPost fg.st fg.tape initialData
      ⟨c.out, c.st, c.tape, fg.trace ++ c.trace⟩
  | .error _ =>
    let c := createGistPost fg.st fg.tape initialData
    ⟨c.out, c.st, c.tape, fg.trace ++ c.trace⟩

/-- The creation tail of `ensureGistExists` (lines 332–337): create (or adopt)
a gist and cache its id. -/
def ensureCreate (st : SyncState) (tape : List HttpResp) (nowIso : String) :
    ExecResult String :=
  let c := createGist st tape nowIso
  match c.out with
  | .ok g => ⟨.ok g.id, { c.st with gistId := some g.id }, c.tape, c.trace⟩
  | .error e => ⟨.error e, c.st, c.tape, c.trace⟩

/-- The search-then-create part of `ensureGistExists` (lines 314–337): list
the user's gists and adopt a matching one; *a listing failure is caught and
logged* and the method falls through to creation. -/
def ensureSearch (st : SyncState) (tape : List HttpResp) (nowIso : String) :
    ExecResult String :=
  let fg := fetchGists st tape
  match fg.out with
  | .ok gs =>
    match findExistingGist gs with
    | some g => ⟨.ok g.id, { fg.st with gistId := some g.id }, fg.tape, fg.trace⟩
    | none =>
      let c := ensureCreate fg.st fg.tape nowIso
      ⟨c.out, c.st, c.tape, fg.trace ++ c.trace⟩
  | .error _ =>
    let c := ensureCreate fg.st fg.tape nowIso
    ⟨c.out, c.st, c.tape, fg.trace ++ c.trace⟩

/-- `SyncManager.ensureGistExists` (lines 288–338): verify a stored gist id
with a GET (any non-ok response invalidates the stored id and falls through),
then search the listing, then create. -/
def ensureGistExists (st : SyncState) (tape : List HttpResp) (nowIso : String) :
    ExecResult String :=
  match st.gistId with
  | none => ensureSearch st tape nowIso
  | some gid =>
    match tape with
    | [] => ⟨.error "sem resposta", st, [], [.getGist gid]⟩
    | .success _ :: rest => ⟨.ok gid, st, rest, [.getGist gid]⟩
    | .failure _ _ _ :: rest =>
      let s := ensureSearch { st with gistId := none } rest nowIso
      ⟨s.out, s.st, s.tape, .getGist gid :: s.trace⟩

/-- `SyncManager.findOrCreateGist` (lines 280–285): delegates to
`ensureGistExists`. -/
def findOrCreateGist (st : SyncState) (tape : List HttpResp) (nowIso : String) :
    ExecResult String :=
  ensureGistExists st tape nowIso

/-- Reading `gist.files['rfcp-progress.json'].content` followed by
`JSON.parse` (parsing abstracted): a TypeError if the file is missing. -/
def gistContent (g : GistInfo) : Except String JsSnapshot :=
  if g.hasProgressFile then .ok g.content else .error "TypeError: arquivo ausente"

/-- The GET-and-recover body of `fetchRemoteProgress` (lines 468–509): fetch
the gist; on a rate-limit failure record it and throw; on 404 re-run
`ensureGistExists` and retry the GET once; otherwise throw. -/
def fetchGistBody (st : SyncState) (gid : String) (tape : List HttpResp)
    (nowIso : String) : ExecResult JsSnapshot :=
  let k : Except String JsSnapshot × SyncState × List HttpResp × List NetOp :=
    match tape with
    | [] => (.error "sem resposta", st, [], [])
    | .success (.gist g) :: rest => (gistContent g, clearRateLimit st, rest, [])
    | .success (.gists _) :: rest => (.error "payload inesperado", st, rest, [])
    | .failure status msg hdr :: rest =>
      let info := parseRateLimitInfo status msg hdr
      if info.isRateLimit then
        (.error "Rate limit excedido", setRateLimited st info.resetDate, rest, [])
      else if status == 404 then
        let e := ensureGistExists st rest nowIso
        match e.out with
        | .error err => (.error err, e.st, e.tape, e.trace)
        | .ok _ =>
          match e.st.gistId with
          | none => (.error "Gist ID não configurado", e.st, e.tape, e.trace)
          | some gid2 =>
            match e.tape with
            | [] => (.error "sem resposta", e.st, [], e.trace ++ [.getGist gid2])
            | .success (.gist g) :: rest2 =>
              (gistContent g, clearRateLimit e.st, rest2, e.trace ++ [.getGist gid2])
            | .success (.gists _) :: rest2 =>
              (.error "payload inesperado", e.st, rest2, e.trace ++ [.getGist gid2])
            | .failure s2 _ _ :: rest2 =>
              (.error ("Erro ao buscar progresso remoto (após tentativa): " ++ toString s2),
                e.st, rest2, e.trace ++ [.getGist gid2])
      else
        (.error ("Erro ao buscar progresso remoto: " ++ toString status), st, rest, [])
  ⟨k.1, k.2.1, k.2.2.1, .getGist gid :: k.2.2.2⟩

/-- `SyncManager.fetchRemoteProgress` (lines 460–510): ensure a gist id exists
first if none is cached, then fetch (with one-shot 404 recovery). -/
def fetchRemoteProgress (st : SyncState) (tape : List HttpResp) (nowIso : String) :
    ExecResult JsSnapshot :=
  match st.gistId with
  | some gid => fetchGistBody st gid tape nowIso
  | none =>
    let e := ensureGistExists st tape nowIso
    match e.out with
    | .error err => ⟨.error err, e.st, e.tape, e.trace⟩
    | .ok _ =>
      match e.st.gistId with
      | none => ⟨.error "Gist ID não configurado", e.st, e.tape, e.trace⟩
      | some gid =>
        let f := fetchGistBody e.st gid e.tape nowIso
        ⟨f.out, f.st, f.tape, e.trace ++ f.trace⟩

/-- The retry PATCH of `saveRemoteProgress` (lines 554–587). -/
def savePatchRetry (st : SyncState) (gid : String) (tape : List HttpResp)
    (dws : JsSnapshot) : ExecResult GistInfo :=
  let k : Except String GistInfo × SyncState × List HttpResp :=
    match tape with
    | [] => (.error "sem resposta", st, [])
    | .success (.gist g) :: rest => (.ok g, clearRateLimit st, rest)
    | .success (.gists _) :: rest => (.error "payload inesperado", st, rest)
    | .failure status msg hdr :: rest =>
      let info := parseRateLimitInfo status msg hdr
      if info.isRateLimit then
        (.error "Rate limit excedido", setRateLimited st info.resetDate, rest)
      else
        (.error ("Erro ao salvar progresso remoto (retry): " ++ toString status), st, rest)
  ⟨k.1, k.2.1, k.2.2, [.patchGist gid dws]⟩

/-- `SyncManager.saveRemoteProgress` (lines 513–596): stamp the payload with a
fresh `lastModified`, PATCH the gist; on a rate-limit failure record it and
throw; on 404/409 re-run `ensureGistExists` and retry the PATCH once;
otherwise throw. -/
def saveRemoteProgress (st : SyncState) (tape : List HttpResp)
    (data : Option JsSnapshot) (nowIso : String) : ExecResult GistInfo :=
  match st.gistId with
  | none => ⟨.error "Gist ID não configurado", st, tape, []⟩
  | some gid =>
    let dws := dataWithTimestamp data nowIso
    let k : Except String GistInfo × SyncState × List HttpResp × List NetOp :=
      match tape with
      | [] => (.error "sem resposta", st, [], [])
      | .success (.gist g) :: rest => (.ok g, clearRateLimit st, rest, [])
      | .success (.gists _) :: rest => (.error "payload inesperado", st, rest, [])
      | .failure status msg hdr :: rest =>
        let info := parseRateLimitInfo status msg hdr
        if info.isRateLimit then
          (.error "Rate limit excedido", setRateLimited st info.resetDate, rest, [])
        else if status == 404 || status == 409 then
          let e := ensureGistExists st rest nowIso
          match e.out with
          | .error err => (.error err, e.st, e.tape, e.trace)
          | .ok _ =>
            match e.st.gistId with
            | none => (.error "Gist ID não configurado", e.st, e.tape, e.trace)
            | some gid2 =>
              let r := savePatchRetry e.st gid2 e.tape dws
              (r.out, r.st, r.tape, e.trace ++ r.trace)
        else
          (.error ("Erro ao salvar progresso remoto: " ++ toString status), st, rest, [])
    ⟨k.1, k.2.1, k.2.2.1, .patchGist gid dws :: k.2.2.2⟩

/-- `SyncManager.sync` (lines 431–457): no-op returning the input when sync is
disabled or another sync is in flight; otherwise set the single-flight flag,
fetch the remote snapshot, merge, save the merged result, record `lastSync`,
reset the flag and return the merged data; any error resets the flag and is
rethrown. -/
def sync (st : SyncState) (tape : List HttpResp) (localData : Option JsSnapshot)
    (nowIso : String) : ExecResult (Option JsSnapshot) :=
  if !st.syncEnabled || st.syncInProgress then ⟨.ok localData, st, tape, []⟩
  else
    let st1 := { st with syncInProgress := true }
    let f := fetchRemoteProgress st1 tape nowIso
    match f.out with
    | .error e => ⟨.error e, { f.st with syncInProgress := false }, f.tape, f.trace⟩
    | .ok remoteData =>
      let merged := mergeProgress localData (some remoteData)
      let s := saveRemoteProgress f.st f.tape merged nowIso
      match s.out with
      | .error e =>
        ⟨.error e, { s.st with syncInProgress := false }, s.tape, f.trace ++ s.trace⟩
      | .ok _ =>
        ⟨.ok merged,
          { s.st with lastSync := some nowIso, syncInProgress := false },
          s.tape, f.trace ++ s.trace⟩

/-- `SyncManager.disable` (lines 632–638). -/
def disable (st : SyncState) : SyncState :=
  { st with syncEnabled := false, token := none, gistId := none }

/-- `SyncManager.setupSync` (lines 260–277): reject an empty/blank token,
store the trimmed token, run `findOrCreateGist`, then mark sync enabled; on
any error run `disable` and rethrow.  No dedicated credential-validation
request is made. -/
def setupSync (st : SyncState) (token : String) (tape : List HttpResp)
    (nowIso : String) : ExecResult String :=
  if jsTrim token = "" then ⟨.error "Token do GitHub é obrigatório", st, tape, []⟩
  else
    let st1 := { st with token := some (jsTrim token) }
    let e := findOrCreateGist st1 tape nowIso
    match e.out with
    | .ok _ =>
      ⟨.ok "Sincronização configurada com sucesso!",
        { e.st with syncEnabled := true }, e.tape, e.trace⟩
    | .error msg =>
      ⟨.error ("Erro ao configurar sincronização: " ++ msg),
        disable e.st, e.tape, e.trace⟩

end SyncManager

/-! ### Lemmas about the JS primitives -/

theorem jsSetGo_mem (l seen : List String) (a : String) :
    a ∈ jsSetGo l seen ↔ a ∈ l ∧ a ∉ seen := by
  induction l generalizing seen with
  | nil => simp [jsSetGo]
  | cons x xs ih =>
    by_cases hx : x ∈ seen
    · rw [jsSetGo, if_pos hx, ih]
      constructor
      · rintro ⟨h1, h2⟩
        exact ⟨List.mem_cons_of_mem _ h1, h2⟩
      · rintro ⟨h1, h2⟩
        rcases List.mem_cons.mp h1 with rfl | h1'
        · exact absurd hx h2
        · exact ⟨h1', h2⟩
    · rw [jsSetGo, if_neg hx]
      constructor
      · intro hm
        rcases List.mem_cons.mp hm with rfl | hm'
        · exact ⟨List.mem_cons_self _ _, hx⟩
        · obtain ⟨h1, h2⟩ := (ih (x :: seen)).mp hm'
          exact ⟨List.mem_cons_of_mem _ h1,
            fun hs => h2 (List.mem_cons_of_mem _ hs)⟩
      · rintro ⟨h1, h2⟩
        rcases List.mem_cons.mp h1 with rfl | h1'
        · exact List.mem_cons_self _ _
        · by_cases hax : a = x
          · exact hax ▸ List.mem_cons_self _ _
          · exact List.mem_cons_of_mem _ ((ih (x :: seen)).mpr
              ⟨h1', fun hs => (List.mem_cons.mp hs).elim hax h2⟩)

theorem jsSetGo_nodup (l seen : List String) : (jsSetGo l seen).Nodup := by
  induction l generalizing seen with
  | nil => simp [jsSetGo]
  | cons x xs ih =>
    by_cases hx : x ∈ seen
    · rw [jsSetGo, if_pos hx]
      exact ih seen
    · rw [jsSetGo, if_neg hx]
      refine List.nodup_cons.mpr ⟨?_, ih (x :: seen)⟩
      intro hmem
      exact ((jsSetGo_mem xs (x :: seen) x).mp hmem).2 (List.mem_cons_self _ _)

theorem jsSetGo_all_seen (l seen : List String) (h : ∀ x ∈ l, x ∈ seen) :
    jsSetGo l seen = [] := by
  induction l with
  | nil => rfl
  | cons x xs ih =>
    rw [jsSetGo, if_pos (h x (List.mem_cons_self _ _))]
    exact ih (fun y hy => h y (List.mem_cons_of_mem _ hy))

theorem jsSetGo_append (l l' seen : List String) (hnd : l.Nodup)
    (hdis : ∀ x ∈ l, x ∉ seen) :
    ∃ seen', jsSetGo (l ++ l') seen = l ++ jsSetGo l' seen' ∧
      ∀ x, x ∈ seen' ↔ x ∈ l ∨ x ∈ seen := by
  induction l generalizing seen with
  | nil => exact ⟨seen, rfl, by simp⟩
  | cons x xs ih =>
    have hx : x ∉ seen := hdis x (List.mem_cons_self _ _)
    obtain ⟨hx2, hnd'⟩ := List.nodup_cons.mp hnd
    obtain ⟨seen', h1, h2⟩ := ih (x :: seen) hnd' (fun y hy hmem => by
      rcases List.mem_cons.mp hmem with rfl | hmem'
      · exact hx2 hy
      · exact hdis y (List.mem_cons_of_mem _ hy) hmem')
    refine ⟨seen', ?_, ?_⟩
    · rw [List.cons_append, jsSetGo, if_neg hx, h1, List.cons_append]
    · intro y
      rw [h2 y]
      simp only [List.mem_cons]
      tauto

theorem jsSetOf_mem (l : List String) (a : String) : a ∈ jsSetOf l ↔ a ∈ l := by
  unfold jsSetOf
  rw [jsSetGo_mem]
  simp

theorem jsSetOf_nodup (l : List String) : (jsSetOf l).Nodup := jsSetGo_nodup l []

theorem jsSetOf_append_self (l : List String) (h : l.Nodup) : jsSetOf (l ++ l) = l := by
  unfold jsSetOf
  obtain ⟨seen', h1, h2⟩ := jsSetGo_append l l [] h (by simp)
  rw [h1, jsSetGo_all_seen l seen' (fun x hx => (h2 x).mpr (Or.inl hx)),
    List.append_nil]

theorem jsGet_objSet_self (m : List (String × String)) (k v : String) :
    jsGet (objSet m k v) k = some v := by
  induction m with
  | nil => simp [objSet, jsGet]
  | cons e rest ih =>
    obtain ⟨k', v'⟩ := e
    by_cases h : k' = k
    · simp [objSet, h, jsGet]
    · simp [objSet, h, jsGet, ih]

theorem jsGet_objSet_ne (m : List (String × String)) (k v q : String) (h : q ≠ k) :
    jsGet (objSet m k v) q = jsGet m q := by
  induction m with
  | nil => simp [objSet, jsGet, Ne.symm h]
  | cons e rest ih =>
    obtain ⟨k', v'⟩ := e
    by_cases hk : k' = k
    · simp [objSet, hk, jsGet, Ne.symm h]
    · by_cases hq : k' = q <;> simp [objSet, hk, jsGet, hq, ih, h]

theorem objSet_self (m : List (String × String)) (k v : String)
    (h : jsGet m k = some v) : objSet m k v = m := by
  induction m with
  | nil => simp [jsGet] at h
  | cons e rest ih =>
    obtain ⟨k', v'⟩ := e
    by_cases hk : k' = k
    · subst hk
      simp [jsGet] at h
      simp [objSet, h]
    · simp [jsGet, hk] at h
      simp [objSet, hk, ih h]

theorem jsGet_mem (m : List (String × String)) (q v : String)
    (h : jsGet m q = some v) : (q, v) ∈ m := by
  induction m with
  | nil => simp [jsGet] at h
  | cons e rest ih =>
    obtain ⟨k', v'⟩ := e
    by_cases hk : k' = q
    · subst hk
      simp [jsGet] at h
      simp [h]
    · simp [jsGet, hk] at h
      exact List.mem_cons_of_mem _ (ih h)

theorem jsGet_eq_none (m : List (String × String)) (q : String)
    (h : jsGet m q = none) : ∀ e ∈ m, e.1 ≠ q := by
  induction m with
  | nil => intro e he; simp at he
  | cons e rest ih =>
    obtain ⟨k', v'⟩ := e
    by_cases hk : k' = q
    · subst hk; simp [jsGet] at h
    · simp [jsGet, hk] at h
      intro f hf
      rcases List.mem_cons.mp hf with rfl | hf'
      · exact hk
      · exact ih h f hf'

theorem jsGet_of_mem_nodup (m : List (String × String))
    (h : (m.map Prod.fst).Nodup) (k v : String) (hm : (k, v) ∈ m) :
    jsGet m k = some v := by
  induction m with
  | nil => simp at hm
  | cons e rest ih =>
    obtain ⟨k', v'⟩ := e
    rw [List.map_cons] at h
    obtain ⟨h1, h2⟩ := List.nodup_cons.mp h
    rcases List.mem_cons.mp hm with heq | hmem
    · injection heq with ha hb
      subst ha; subst hb
      simp [jsGet]
    · have hk : k' ≠ k := by
        rintro rfl
        exact h1 (List.mem_map.mpr ⟨(k', v), hmem, rfl⟩)
      simp only [jsGet, if_neg hk]
      exact ih h2 hmem

theorem objSet_keys_sub (m : List (String × String)) (k v q : String)
    (h : q ∈ (objSet m k v).map Prod.fst) : q ∈ m.map Prod.fst ∨ q = k := by
  induction m with
  | nil =>
    rcases List.mem_map.mp h with ⟨e, he, rfl⟩
    rcases List.mem_singleton.mp he with rfl
    exact Or.inr rfl
  | cons p rest ih =>
    obtain ⟨k', v'⟩ := p
    by_cases hk : k' = k
    · rw [show objSet ((k', v') :: rest) k v = (k, v) :: rest from by simp [objSet, hk],
        List.map_cons] at h
      rcases List.mem_cons.mp h with rfl | h'
      · exact Or.inr rfl
      · exact Or.inl (by rw [List.map_cons]; exact List.mem_cons_of_mem _ h')
    · rw [show objSet ((k', v') :: rest) k v = (k', v') :: objSet rest k v from by
        simp [objSet, hk], List.map_cons] at h
      rcases List.mem_cons.mp h with rfl | h'
      · exact Or.inl (by rw [List.map_cons]; exact List.mem_cons_self _ _)
      · rcases ih h' with h'' | h''
        · exact Or.inl (by rw [List.map_cons]; exact List.mem_cons_of_mem _ h'')
        · exact Or.inr h''

theorem objSet_keysNodup (m : List (String × String)) (k v : String)
    (h : (m.map Prod.fst).Nodup) : ((objSet m k v).map Prod.fst).Nodup := by
  induction m with
  | nil => simp [objSet]
  | cons p rest ih =>
    obtain ⟨k', v'⟩ := p
    rw [List.map_cons] at h
    obtain ⟨h1, h2⟩ := List.nodup_cons.mp h
    by_cases hk : k' = k
    · subst hk
      rw [show objSet ((k', v') :: rest) k' v = (k', v) :: rest from by simp [objSet],
        List.map_cons]
      exact List.nodup_cons.mpr ⟨h1, h2⟩
    · rw [show objSet ((k', v') :: rest) k v = (k', v') :: objSet rest k v from by
        simp [objSet, hk], List.map_cons]
      refine List.nodup_cons.mpr ⟨?_, ih h2⟩
      intro hmem
      rcases objSet_keys_sub rest k v k' hmem with h' | h'
      · exact h1 h'
      · exact hk h'

theorem dateGT_irrefl (d : String) : dateGT d d = false := by
  unfold dateGT
  cases jsDateParse d <;> simp

theorem mergeDatesStep_get_ne (m : List (String × String)) (e : String × String)
    (q : String) (h : e.1 ≠ q) : jsGet (mergeDatesStep m e) q = jsGet m q := by
  unfold mergeDatesStep
  cases jsGet m e.1 with
  | none => exact jsGet_objSet_ne m e.1 e.2 q (Ne.symm h)
  | some d =>
    by_cases hc : d = "" ∨ dateGT e.2 d = true
    · simp only [if_pos hc]
      exact jsGet_objSet_ne m e.1 e.2 q (Ne.symm h)
    · simp only [if_neg hc]

theorem mergeDatesStep_keysNodup (m : List (String × String)) (e : String × String)
    (h : (m.map Prod.fst).Nodup) : ((mergeDatesStep m e).map Prod.fst).Nodup := by
  unfold mergeDatesStep
  cases jsGet m e.1 with
  | none => exact objSet_keysNodup m e.1 e.2 h
  | some d =>
    by_cases hc : d = "" ∨ dateGT e.2 d = true
    · simp only [if_pos hc]
      exact objSet_keysNodup m e.1 e.2 h
    · simp only [if_neg hc]
      exact h

theorem foldl_mergeDatesStep_keysNodup (es : List (String × String))
    (m : List (String × String)) (h : (m.map Prod.fst).Nodup) :
    (((es.foldl mergeDatesStep m)).map Prod.fst).Nodup := by
  induction es generalizing m with
  | nil => exact h
  | cons e rest ih =>
    rw [List.foldl_cons]
    exact ih _ (mergeDatesStep_keysNodup m e h)

theorem mergeDatesStep_self (m : List (String × String)) (e : String × String)
    (h : jsGet m e.1 = some e.2) : mergeDatesStep m e = m := by
  unfold mergeDatesStep
  rw [h]
  show (if e.2 = "" ∨ dateGT e.2 e.2 = true then objSet m e.1 e.2 else m) = m
  rw [dateGT_irrefl]
  by_cases he : e.2 = ""
  · rw [if_pos (by simp [he])]
    exact objSet_self m e.1 e.2 (he ▸ h)
  · rw [if_neg (by simp [he])]

theorem foldl_mergeDatesStep_self (es : List (String × String))
    (m : List (String × String)) (h : ∀ e ∈ es, jsGet m e.1 = some e.2) :
    es.foldl mergeDatesStep m = m := by
  induction es with
  | nil => rfl
  | cons e rest ih =>
    rw [List.foldl_cons, mergeDatesStep_self m e (h e (List.mem_cons_self _ _))]
    exact ih (fun f hf => h f (List.mem_cons_of_mem _ hf))

theorem foldl_mergeDatesStep_not_mem (es : List (String × String))
    (m : List (String × String)) (q : String) (h : ∀ e ∈ es, e.1 ≠ q) :
    jsGet (es.foldl mergeDatesStep m) q = jsGet m q := by
  induction es generalizing m with
  | nil => rfl
  | cons e rest ih =>
    rw [List.foldl_cons]
    rw [ih _ (fun f hf => h f (List.mem_cons_of_mem _ hf))]
    exact mergeDatesStep_get_ne m e q (h e (List.mem_cons_self _ _))

theorem mergeDatesStep_get_self (m : List (String × String)) (k v : String) :
    jsGet (mergeDatesStep m (k, v)) k =
      match jsGet m k with
      | none => some v
      | some rd => if rd = "" ∨ dateGT v rd then some v else some rd := by
  cases hg : jsGet m k with
  | none => simp only [mergeDatesStep, hg, jsGet_objSet_self]
  | some rd =>
    simp only [mergeDatesStep, hg]
    by_cases hc : rd = "" ∨ dateGT v rd = true
    · simp only [if_pos hc, jsGet_objSet_self]
    · simp only [if_neg hc, hg]

theorem foldl_mergeDatesStep_mem (es : List (String × String))
    (m : List (String × String)) (q d : String)
    (hnd : (es.map Prod.fst).Nodup) (hm : (q, d) ∈ es) :
    jsGet (es.foldl mergeDatesStep m) q =
      match jsGet m q with
      | none => some d
      | some rd => if rd = "" ∨ dateGT d rd then some d else some rd := by
  induction es generalizing m with
  | nil => simp at hm
  | cons e rest ih =>
    rw [List.map_cons] at hnd
    obtain ⟨h1, h2⟩ := List.nodup_cons.mp hnd
    rcases List.mem_cons.mp hm with heq | hmem
    · subst heq
      rw [List.foldl_cons]
      have hq : ∀ f ∈ rest, f.1 ≠ q := by
        intro f hf hfq
        exact h1 (hfq ▸ List.mem_map.mpr ⟨f, hf, rfl⟩)
      rw [foldl_mergeDatesStep_not_mem rest _ q hq]
      exact mergeDatesStep_get_self m q d
    · have he : e.1 ≠ q := by
        intro hfq
        exact h1 (List.mem_map.mpr ⟨(q, d), hmem, hfq.symm⟩)
      rw [List.foldl_cons, ih _ h2 hmem, mergeDatesStep_get_ne m e q he]

/-! ### Unfolding lemmas for `mergeProgress` -/

theorem mergeProgress_absent_remote (lo : Option JsSnapshot) :
    mergeProgress lo none = lo := rfl

theorem mergeProgress_remote_noids (lo : Option JsSnapshot) (r : JsSnapshot)
    (h : r.completedIds = none) : mergeProgress lo (some r) = lo := by
  simp [mergeProgress, h]

theorem mergeProgress_absent_local (r : JsSnapshot) (rids : List String)
    (h : r.completedIds = some rids) : mergeProgress none (some r) = some r := by
  simp [mergeProgress, h]

theorem mergeProgress_local_noids (l r : JsSnapshot) (rids : List String)
    (hl : l.completedIds = none) (hr : r.completedIds = some rids) :
    mergeProgress (some l) (some r) = some r := by
  simp [mergeProgress, hl, hr]

theorem mergeProgress_both (l r : JsSnapshot) (lids rids : List String)
    (hl : l.completedIds = some lids) (hr : r.completedIds = some rids) :
    mergeProgress (some l) (some r) =
      some ⟨some (jsSetOf (lids ++ rids)),
            l.completionDates.foldl mergeDatesStep r.completionDates, none⟩ := by
  simp [mergeProgress, hl, hr]

/-- Executable well-formedness of an optional snapshot, as the data model
enforces it: `completedIds` (when present) duplicate-free, `completionDates`
keys unique (a JS object), and no `lastModified` field. -/
def wfSnapOpt (o : Option JsSnapshot) : Bool :=
  match o with
  | none => true
  | some s =>
    (match s.completedIds with
     | none => true
     | some ids => decide ids.Nodup) &&
    decide ((s.completionDates.map Prod.fst).Nodup) &&
    decide (s.lastModified = none)

theorem wfSnapOpt_elim (s : JsSnapshot) (h : wfSnapOpt (some s) = true) :
    (∀ ids, s.completedIds = some ids → ids.Nodup) ∧
      (s.completionDates.map Prod.fst).Nodup ∧ s.lastModified = none := by
  unfold wfSnapOpt at h
  simp only [Bool.and_eq_true, decide_eq_true_eq] at h
  refine ⟨?_, h.1.2, h.2⟩
  intro ids hids
  have := h.1.1
  rw [hids] at this
  simpa using this

theorem mergeProgress_self_noids (m : JsSnapshot) (h : m.completedIds = none) :
    mergeProgress (some m) (some m) = some m := by
  simp [mergeProgress, h]

theorem mergeProgress_self_good (m : JsSnapshot) (ids : List String)
    (hid : m.completedIds = some ids) (hnd : ids.Nodup)
    (hkeys : (m.completionDates.map Prod.fst).Nodup)
    (hlm : m.lastModified = none) :
    mergeProgress (some m) (some m) = some m := by
  rw [mergeProgress_both m m ids ids hid hid]
  have hfold : m.completionDates.foldl mergeDatesStep m.completionDates
      = m.completionDates :=
    foldl_mergeDatesStep_self _ _ (by
      intro e he
      obtain ⟨a, b⟩ := e
      exact jsGet_of_mem_nodup _ hkeys a b he)
  rw [jsSetOf_append_self ids hnd, hfold]
  cases m with
  | mk ci cd lm => simp_all

/-! ### Claim theorems about the merge engine -/

/-- C4 counterexample: with both arguments absent, `mergeProgress` returns the
absent `local` (JS `null`) — not the empty snapshot
`{completedIds: [], completionDates: {}}` the claim requires. -/
theorem mergeProgress_both_absent_cex :
    mergeProgress none none = none ∧
      mergeProgress none none ≠ some emptySnapshot := by
  decide

/-- C4 (amended): `mergeProgress` returns `local` verbatim (even when absent)
whenever `remote` is absent or lacks `completedIds`; it returns `remote`
unchanged when `remote` has `completedIds` and `local` is absent or lacks the
field.  When both are absent the result is the absent `local`, not an empty
snapshot. -/
theorem mergeProgress_identity_laws :
    (∀ lo : Option JsSnapshot, mergeProgress lo none = lo) ∧
    (∀ (lo : Option JsSnapshot) (r : JsSnapshot), r.completedIds = none →
      mergeProgress lo (some r) = lo) ∧
    (∀ (r : JsSnapshot) (rids : List String), r.completedIds = some rids →
      mergeProgress none (some r) = some r) ∧
    (∀ (l r : JsSnapshot) (rids : List String), l.completedIds = none →
      r.completedIds = some rids → mergeProgress (some l) (some r) = some r) :=
  ⟨mergeProgress_absent_remote, mergeProgress_remote_noids,
    mergeProgress_absent_local, mergeProgress_local_noids⟩

/-- Witness for C4's amended theorem at concrete snapshots. -/
theorem mergeProgress_identity_laws_witness :
    mergeProgress (some ⟨some ["A"], [("A", "2025-01-01")], none⟩) none
        = some ⟨some ["A"], [("A", "2025-01-01")], none⟩ ∧
      mergeProgress none (some ⟨some ["B"], [], none⟩)
        = some ⟨some ["B"], [], none⟩ :=
  ⟨mergeProgress_identity_laws.1 _,
    mergeProgress_identity_laws.2.2.1 ⟨some ["B"], [], none⟩ ["B"] rfl⟩

/-- C7: when both snapshots have a `completedIds` field, the merged
`completedIds` contains every id of either side and has no duplicates. -/
theorem mergeProgress_union_nodup (l r : JsSnapshot) (lids rids : List String)
    (hl : l.completedIds = some lids) (hr : r.completedIds = some rids) :
    ∃ m mids, mergeProgress (some l) (some r) = some m ∧
      m.completedIds = some mids ∧
      (∀ a, a ∈ lids → a ∈ mids) ∧ (∀ a, a ∈ rids → a ∈ mids) ∧ mids.Nodup := by
  refine ⟨_, _, mergeProgress_both l r lids rids hl hr, rfl, ?_, ?_, jsSetOf_nodup _⟩
  · intro a ha
    exact (jsSetOf_mem _ a).mpr (List.mem_append.mpr (Or.inl ha))
  · intro a ha
    exact (jsSetOf_mem _ a).mpr (List.mem_append.mpr (Or.inr ha))

/-- Witness for C7 on the spec's union scenario
(`{A,B}` merged with `{B,C}`). -/
theorem mergeProgress_union_nodup_witness :
    ∃ m mids,
      mergeProgress (some ⟨some ["A", "B"], [], none⟩)
          (some ⟨some ["B", "C"], [], none⟩) = some m ∧
        m.completedIds = some mids ∧ ("A" ∈ mids ∧ "C" ∈ mids) ∧ mids.Nodup := by
  obtain ⟨m, mids, h1, h2, h3, h4, h5⟩ :=
    mergeProgress_union_nodup ⟨some ["A", "B"], [], none⟩ ⟨some ["B", "C"], [], none⟩
      ["A", "B"] ["B", "C"] rfl rfl
  exact ⟨m, mids, h1, h2, ⟨h3 "A" (by simp), h4 "C" (by simp)⟩, h5⟩

/-- C6: when both snapshots have `completedIds`, the local date keys are
unique (a JS object) and the remote dates are non-empty strings, the merged
`completionDates` is, per key, the remote entry overwritten by the local entry
exactly when the local date is strictly later (a missing remote entry counting
as earliest possible). -/
theorem mergeProgress_latest_timestamp_wins (l r : JsSnapshot)
    (lids rids : List String)
    (hl : l.completedIds = some lids) (hr : r.completedIds = some rids)
    (hnd : (l.completionDates.map Prod.fst).Nodup)
    (hne : ∀ e ∈ r.completionDates, e.2 ≠ "") :
    ∃ m, mergeProgress (some l) (some r) = some m ∧
      ∀ q, jsGet m.completionDates q =
        match jsGet l.completionDates q, jsGet r.completionDates q with
        | none, rv => rv
        | some lv, none => some lv
        | some lv, some rv => if dateGT lv rv then some lv else some rv := by
  refine ⟨_, mergeProgress_both l r lids rids hl hr, ?_⟩
  intro q
  show jsGet (l.completionDates.foldl mergeDatesStep r.completionDates) q = _
  cases hlq : jsGet l.completionDates q with
  | none =>
    rw [foldl_mergeDatesStep_not_mem _ _ q (jsGet_eq_none _ q hlq)]
  | some lv =>
    have hmem := jsGet_mem _ _ _ hlq
    rw [foldl_mergeDatesStep_mem _ _ q lv hnd hmem]
    cases hrq : jsGet r.completionDates q with
    | none => simp
    | some rv =>
      have hrv : rv ≠ "" := hne (q, rv) (jsGet_mem _ _ _ hrq)
      simp [hrv]

/-- Witness for C6 on the spec's example: local date `2025-01-01`, remote
date `2025-01-05` for the same id merge to `2025-01-05`. -/
theorem mergeProgress_latest_timestamp_wins_witness :
    ∃ m, mergeProgress (some ⟨some ["A"], [("A", "2025-01-01")], none⟩)
        (some ⟨some ["A"], [("A", "2025-01-05")], none⟩) = some m ∧
      jsGet m.completionDates "A" = some "2025-01-05" := by
  obtain ⟨m, hm, hall⟩ :=
    mergeProgress_latest_timestamp_wins
      ⟨some ["A"], [("A", "2025-01-01")], none⟩
      ⟨some ["A"], [("A", "2025-01-05")], none⟩
      ["A"] ["A"] rfl rfl (by decide) (by decide)
  refine ⟨m, hm, ?_⟩
  rw [hall "A"]
  decide

/-- C9 counterexample: with `B` absent, `merge(A, B)` returns `A` verbatim —
including its `lastModified` field — but re-merging that result with itself
rebuilds the snapshot without `lastModified`, so the results differ. -/
theorem mergeProgress_not_idempotent_cex :
    mergeProgress
        (mergeProgress (some ⟨some ["X"], [], some "2025-01-01T00:00:00.000Z"⟩) none)
        (mergeProgress (some ⟨some ["X"], [], some "2025-01-01T00:00:00.000Z"⟩) none)
      ≠ mergeProgress (some ⟨some ["X"], [], some "2025-01-01T00:00:00.000Z"⟩) none := by
  decide

/-- C9 (amended): `mergeProgress` is idempotent on well-formed inputs —
present snapshots with duplicate-free `completedIds`, unique date keys and no
`lastModified` field: `merge(merge(A,B), merge(A,B)) = merge(A,B)`. -/
theorem mergeProgress_idempotent_wf (A B : Option JsSnapshot)
    (hA : wfSnapOpt A = true) (hB : wfSnapOpt B = true) :
    mergeProgress (mergeProgress A B) (mergeProgress A B) = mergeProgress A B := by
  have key : ∀ o : Option JsSnapshot, wfSnapOpt o = true →
      mergeProgress o o = o := by
    intro o ho
    cases o with
    | none => rfl
    | some s =>
      obtain ⟨h1, h2, h3⟩ := wfSnapOpt_elim s ho
      cases hid : s.completedIds with
      | none => exact mergeProgress_self_noids s hid
      | some ids => exact mergeProgress_self_good s ids hid (h1 ids hid) h2 h3
  cases B with
  | none => exact key A hA
  | some b =>
    cases hbid : b.completedIds with
    | none =>
      rw [mergeProgress_remote_noids A b hbid]
      exact key A hA
    | some rids =>
      cases A with
      | none =>
        rw [mergeProgress_absent_local b rids hbid]
        exact key (some b) hB
      | some a =>
        cases haid : a.completedIds with
        | none =>
          rw [mergeProgress_local_noids a b rids haid hbid]
          exact key (some b) hB
        | some lids =>
          rw [mergeProgress_both a b lids rids haid hbid]
          obtain ⟨_, hb2, _⟩ := wfSnapOpt_elim b hB
          exact mergeProgress_self_good _ (jsSetOf (lids ++ rids)) rfl
            (jsSetOf_nodup _) (foldl_mergeDatesStep_keysNodup _ _ hb2) rfl

/-- Witness for C9's amended theorem at concrete well-formed snapshots. -/
theorem mergeProgress_idempotent_wf_witness :
    wfSnapOpt (some ⟨some ["A"], [("A", "2025-01-01")], none⟩) = true ∧
      mergeProgress
          (mergeProgress (some ⟨some ["A"], [("A", "2025-01-01")], none⟩)
            (some ⟨some ["B"], [("B", "2025-01-02")], none⟩))
          (mergeProgress (some ⟨some ["A"], [("A", "2025-01-01")], none⟩)
            (some ⟨some ["B"], [("B", "2025-01-02")], none⟩))
        = mergeProgress (some ⟨some ["A"], [("A", "2025-01-01")], none⟩)
            (some ⟨some ["B"], [("B", "2025-01-02")], none⟩) :=
  ⟨by decide, mergeProgress_idempotent_wf _ _ (by decide) (by decide)⟩

/-- C10: for inputs that both have `completedIds`, the merged snapshot has
exactly the fields `completedIds` and `completionDates` — in particular no
`lastModified` — and a fresh `lastModified` is stamped only when
`saveRemoteProgress` writes the document (its PATCH payload is the input data
with `lastModified` set to the current time). -/
theorem mergeProgress_frame_lastModified (l r : JsSnapshot)
    (lids rids : List String)
    (hl : l.completedIds = some lids) (hr : r.completedIds = some rids) :
    (∃ m, mergeProgress (some l) (some r) = some m ∧ m.lastModified = none ∧
      m.completedIds = some (jsSetOf (lids ++ rids)) ∧
      m.completionDates = l.completionDates.foldl mergeDatesStep r.completionDates) ∧
    (∀ (d : Option JsSnapshot) (now : String),
      (dataWithTimestamp d now).lastModified = some now) ∧
    (∀ (st : SyncState) (gid : String) (tape : List HttpResp)
      (d : Option JsSnapshot) (now : String), st.gistId = some gid →
      (SyncManager.saveRemoteProgress st tape d now).trace.head? =
        some (.patchGist gid (dataWithTimestamp d now))) := by
  refine ⟨⟨_, mergeProgress_both l r lids rids hl hr, rfl, rfl, rfl⟩, ?_, ?_⟩
  · intro d now
    rfl
  · intro st gid tape d now h
    simp [SyncManager.saveRemoteProgress, h]

/-- Witness for C10 at concrete inputs carrying `lastModified`. -/
theorem mergeProgress_frame_lastModified_witness :
    (∃ m, mergeProgress (some ⟨some ["A"], [], some "2025-01-01"⟩)
        (some ⟨some ["B"], [], some "2025-01-02"⟩) = some m ∧
      m.lastModified = none ∧
      m.completedIds = some (jsSetOf (["A"] ++ ["B"])) ∧
      m.completionDates = List.foldl mergeDatesStep [] []) ∧
    (dataWithTimestamp (some ⟨some ["A"], [], none⟩) "T1").lastModified
      = some "T1" := by
  obtain ⟨h1, h2, _⟩ :=
    mergeProgress_frame_lastModified ⟨some ["A"], [], some "2025-01-01"⟩
      ⟨some ["B"], [], some "2025-01-02"⟩ ["A"] ["B"] rfl rfl
  exact ⟨h1, h2 _ "T1"⟩

/-! ### Trace lemmas for the network-facing methods -/

theorem fetchGists_trace (st : SyncState) (tape : List HttpResp) :
    (SyncManager.fetchGists st tape).trace = [.listGists] := rfl

theorem createGistPost_trace (st : SyncState) (tape : List HttpResp)
    (p : JsSnapshot) : (SyncManager.createGistPost st tape p).trace = [.createReq p] := rfl

theorem fetchGistBody_trace_ne (st : SyncState) (gid : String)
    (tape : List HttpResp) (now : String) :
    (SyncManager.fetchGistBody st gid tape now).trace ≠ [] :=
  List.cons_ne_nil _ _

theorem ensureCreate_trace (st : SyncState) (tape : List HttpResp) (now : String) :
    (SyncManager.ensureCreate st tape now).trace
      = (SyncManager.createGist st tape now).trace := by
  unfold SyncManager.ensureCreate
  cases hc : (SyncManager.createGist st tape now).out <;> simp [hc]

theorem ensureSearch_trace_ne (st : SyncState) (tape : List HttpResp) (now : String) :
    (SyncManager.ensureSearch st tape now).trace ≠ [] := by
  unfold SyncManager.ensureSearch
  cases hout : (SyncManager.fetchGists st tape).out with
  | ok gs =>
    cases hfind : SyncManager.findExistingGist gs with
    | some g => simp [hout, hfind, fetchGists_trace]
    | none => simp [hout, hfind, fetchGists_trace]
  | error e => simp [hout, fetchGists_trace]

theorem ensureGistExists_trace_ne (st : SyncState) (tape : List HttpResp)
    (now : String) : (SyncManager.ensureGistExists st tape now).trace ≠ [] := by
  unfold SyncManager.ensureGistExists
  cases hg : st.gistId with
  | none => exact ensureSearch_trace_ne st tape now
  | some gid =>
    cases tape with
    | nil => simp
    | cons r rest =>
      cases r with
      | success p => simp
      | failure s m h => simp

theorem fetchRemoteProgress_trace_ne (st : SyncState) (tape : List HttpResp)
    (now : String) : (SyncManager.fetchRemoteProgress st tape now).trace ≠ [] := by
  unfold SyncManager.fetchRemoteProgress
  cases hg : st.gistId with
  | some gid => exact fetchGistBody_trace_ne st gid tape now
  | none =>
    cases he : (SyncManager.ensureGistExists st tape now).out with
    | error err => simpa [he] using ensureGistExists_trace_ne st tape now
    | ok g =>
      cases hgid : (SyncManager.ensureGistExists st tape now).st.gistId with
      | none => simpa [he, hgid] using ensureGistExists_trace_ne st tape now
      | some gid =>
        simp only [he, hgid, ne_eq, List.append_eq_nil]
        intro hc
        exact ensureGistExists_trace_ne st tape now hc.1

theorem noGetUser_createGist (st : SyncState) (tape : List HttpResp) (now : String) :
    NetOp.getUser ∉ (SyncManager.createGist st tape now).trace := by
  unfold SyncManager.createGist
  cases hout : (SyncManager.fetchGists st tape).out with
  | ok gs =>
    cases hfind : SyncManager.findExistingGist gs with
    | some g => simp [hout, hfind, fetchGists_trace]
    | none => simp [hout, hfind, fetchGists_trace, createGistPost_trace]
  | error e => simp [hout, fetchGists_trace, createGistPost_trace]

theorem noGetUser_ensureCreate (st : SyncState) (tape : List HttpResp) (now : String) :
    NetOp.getUser ∉ (SyncManager.ensureCreate st tape now).trace := by
  rw [ensureCreate_trace]
  exact noGetUser_createGist st tape now

theorem noGetUser_ensureSearch (st : SyncState) (tape : List HttpResp) (now : String) :
    NetOp.getUser ∉ (SyncManager.ensureSearch st tape now).trace := by
  unfold SyncManager.ensureSearch
  cases hout : (SyncManager.fetchGists st tape).out with
  | ok gs =>
    cases hfind : SyncManager.findExistingGist gs with
    | some g => simp [hout, hfind, fetchGists_trace]
    | none =>
      simp only [hout, hfind, fetchGists_trace, List.mem_append, List.mem_singleton]
      rintro (h | h)
      · exact absurd h (by simp)
      · exact noGetUser_ensureCreate _ _ now h
  | error e =>
    simp only [hout, fetchGists_trace, List.mem_append, List.mem_singleton]
    rintro (h | h)
    · exact absurd h (by simp)
    · exact noGetUser_ensureCreate _ _ now h

theorem noGetUser_ensureGistExists (st : SyncState) (tape : List HttpResp)
    (now : String) : NetOp.getUser ∉ (SyncManager.ensureGistExists st tape now).trace := by
  unfold SyncManager.ensureGistExists
  cases hg : st.gistId with
  | none => exact noGetUser_ensureSearch st tape now
  | some gid =>
    cases tape with
    | nil => simp
    | cons r rest =>
      cases r with
      | success p => simp
      | failure s m h =>
        simp only [List.mem_cons]
        rintro (h' | h')
        · exact absurd h' (by simp)
        · exact noGetUser_ensureSearch _ rest now h'

/-! ### Lemmas for the locator's behaviour after a failed listing -/

theorem fetchGists_failure_parts (st : SyncState) (s : Nat) (m : String)
    (h : Option String) (rest : List HttpResp) :
    (∃ e, (SyncManager.fetchGists st (.failure s m h :: rest)).out = .error e) ∧
      (SyncManager.fetchGists st (.failure s m h :: rest)).tape = rest := by
  by_cases hrl : (SyncManager.parseRateLimitInfo s m h).isRateLimit = true
  · exact ⟨⟨"Rate limit excedido", by simp [SyncManager.fetchGists, hrl]⟩,
      by simp [SyncManager.fetchGists, hrl]⟩
  · exact ⟨⟨"Erro ao buscar gists: " ++ toString s,
      by simp [SyncManager.fetchGists, hrl]⟩,
      by simp [SyncManager.fetchGists, hrl]⟩

theorem createGist_trace_after_fail (st : SyncState) (s : Nat) (m : String)
    (h : Option String) (rest : List HttpResp) (now : String) :
    (SyncManager.createGist st (.failure s m h :: rest) now).trace
      = [.listGists, .createReq ⟨some [], [], some now⟩] := by
  obtain ⟨⟨e, he⟩, -⟩ := fetchGists_failure_parts st s m h rest
  unfold SyncManager.createGist
  simp [he, fetchGists_trace, createGistPost_trace]

/-- C2 (amended): when the listing request fails (and so does the re-listing
inside `createGist`), `ensureGistExists` with no cached id does not stop with
the listing error: it swallows it and proceeds to issue a document-creation
request. -/
theorem ensureGistExists_creates_after_list_failure (st : SyncState)
    (s1 : Nat) (m1 : String) (h1 : Option String)
    (s2 : Nat) (m2 : String) (h2 : Option String)
    (rest : List HttpResp) (now : String) (hg : st.gistId = none) :
    (SyncManager.ensureGistExists st
        (.failure s1 m1 h1 :: .failure s2 m2 h2 :: rest) now).trace
      = [.listGists, .listGists, .createReq ⟨some [], [], some now⟩] := by
  obtain ⟨⟨e1, he1⟩, ht1⟩ :=
    fetchGists_failure_parts st s1 m1 h1 (.failure s2 m2 h2 :: rest)
  unfold SyncManager.ensureGistExists
  rw [hg]
  unfold SyncManager.ensureSearch
  simp only [he1]
  rw [ensureCreate_trace, ht1, createGist_trace_after_fail, fetchGists_trace]
  rfl

/-- Witness for C2's amended theorem: a concrete rate-limited listing followed
by a successful creation. -/
theorem ensureGistExists_creates_after_list_failure_witness :
    (SyncManager.ensureGistExists ⟨none, some "tok", false, none, false, none⟩
        [.failure 403 "API rate limit exceeded" none,
         .failure 403 "API rate limit exceeded" none,
         .success (.gist ⟨"new1", "RFCP Study Tracker - Progress Data", true,
           emptySnapshot⟩)] "T0").trace
      = [.listGists, .listGists, .createReq ⟨some [], [], some "T0"⟩] :=
  ensureGistExists_creates_after_list_failure _ 403 "API rate limit exceeded" none
    403 "API rate limit exceeded" none _ "T0" rfl

/-- C2 counterexample: with the listing failing (rate-limited) twice, the
locator neither propagates the listing error nor refrains from creating — it
returns the id of a freshly created document, having issued a creation
request. -/
theorem ensureGistExists_after_list_failure_cex :
    (SyncManager.ensureGistExists ⟨none, some "tok", false, none, false, none⟩
        [.failure 403 "API rate limit exceeded" none,
         .failure 403 "API rate limit exceeded" none,
         .success (.gist ⟨"new1", "RFCP Study Tracker - Progress Data", true,
           emptySnapshot⟩)] "T0").out = .ok "new1" ∧
      NetOp.createReq ⟨some [], [], some "T0"⟩ ∈
        (SyncManager.ensureGistExists ⟨none, some "tok", false, none, false, none⟩
          [.failure 403 "API rate limit exceeded" none,
           .failure 403 "API rate limit exceeded" none,
           .success (.gist ⟨"new1", "RFCP Study Tracker - Progress Data", true,
             emptySnapshot⟩)] "T0").trace := by
  decide

/-! ### Claim theorems about the orchestrator and rate-limit tracker -/

/-- C3 counterexample: a concrete successful setup issues only locator
requests (listing twice, then creation) — no dedicated credential-validation
(`GET /user`) request precedes or accompanies the locator run. -/
theorem setupSync_no_testCredential_cex :
    (SyncManager.setupSync ⟨none, none, false, none, false, none⟩ "tok"
        [.success (.gists []), .success (.gists []),
         .success (.gist ⟨"new1", "RFCP Study Tracker - Progress Data", true,
           emptySnapshot⟩)] "T0").out = .ok "Sincronização configurada com sucesso!" ∧
      (SyncManager.setupSync ⟨none, none, false, none, false, none⟩ "tok"
        [.success (.gists []), .success (.gists []),
         .success (.gist ⟨"new1", "RFCP Study Tracker - Progress Data", true,
           emptySnapshot⟩)] "T0").trace
        = [.listGists, .listGists, .createReq ⟨some [], [], some "T0"⟩] ∧
      NetOp.getUser ∉
        (SyncManager.setupSync ⟨none, none, false, none, false, none⟩ "tok"
          [.success (.gists []), .success (.gists []),
           .success (.gist ⟨"new1", "RFCP Study Tracker - Progress Data", true,
             emptySnapshot⟩)] "T0").trace := by
  decide

/-- C3 (amended): for every non-blank token, `setupSync` issues no dedicated
credential-validation request — its network trace is exactly the locator's
(`findOrCreateGist`) trace — and it marks sync enabled exactly when the
locator succeeds, disabling sync (not enabled) when the locator fails. -/
theorem setupSync_no_credential_check (st : SyncState) (token : String)
    (tape : List HttpResp) (now : String) (htok : jsTrim token ≠ "") :
    NetOp.getUser ∉ (SyncManager.setupSync st token tape now).trace ∧
      (SyncManager.setupSync st token tape now).trace
        = (SyncManager.findOrCreateGist
            { st with token := some (jsTrim token) } tape now).trace ∧
      (∀ msgr, (SyncManager.setupSync st token tape now).out = .ok msgr →
        (SyncManager.setupSync st token tape now).st.syncEnabled = true) ∧
      (∀ err, (SyncManager.setupSync st token tape now).out = .error err →
        (SyncManager.setupSync st token tape now).st.syncEnabled = false) := by
  unfold SyncManager.setupSync
  rw [if_neg htok]
  cases he : (SyncManager.findOrCreateGist
      { st with token := some (jsTrim token) } tape now).out with
  | ok g =>
    refine ⟨?_, by simp [he], by simp [he], by simp [he]⟩
    simp only [he]
    exact noGetUser_ensureGistExists _ tape now
  | error e =>
    refine ⟨?_, by simp [he], by simp [he], by simp [he, SyncManager.disable]⟩
    simp only [he]
    exact noGetUser_ensureGistExists _ tape now

/-- Witness for C3's amended theorem at a concrete setup run. -/
theorem setupSync_no_credential_check_witness :
    NetOp.getUser ∉
      (SyncManager.setupSync ⟨none, none, false, none, false, none⟩ "tok"
        [.success (.gists [⟨"g7", "RFCP Study Tracker - Progress Data", true,
          emptySnapshot⟩])] "T0").trace ∧
      jsTrim "tok" ≠ "" :=
  ⟨(setupSync_no_credential_check ⟨none, none, false, none, false, none⟩ "tok"
      [.success (.gists [⟨"g7", "RFCP Study Tracker - Progress Data", true,
        emptySnapshot⟩])] "T0" (by decide)).1,
    by decide⟩

/-- C5: the single-flight guard — a `sync` call made while `syncInProgress`
is set returns its input unchanged, leaves the state and response tape
untouched, and issues no network request. -/
theorem sync_single_flight (st : SyncState) (tape : List HttpResp)
    (lo : Option JsSnapshot) (now : String) (h : st.syncInProgress = true) :
    SyncManager.sync st tape lo now = ⟨.ok lo, st, tape, []⟩ := by
  unfold SyncManager.sync
  rw [h]
  simp

/-- Witness for C5 at a concrete in-flight state. -/
theorem sync_single_flight_witness :
    SyncManager.sync ⟨some "g1", some "tok", true, none, true, none⟩
        [.success (.gist ⟨"g1", "RFCP Study Tracker - Progress Data", true,
          emptySnapshot⟩)]
        (some ⟨some ["L"], [("L", "2025-01-01")], none⟩) "T0"
      = ⟨.ok (some ⟨some ["L"], [("L", "2025-01-01")], none⟩),
          ⟨some "g1", some "tok", true, none, true, none⟩,
          [.success (.gist ⟨"g1", "RFCP Study Tracker - Progress Data", true,
            emptySnapshot⟩)], []⟩ :=
  sync_single_flight _ _ _ "T0" rfl

/-- C1 counterexample: a state that records a future `resetAt`
(`rateLimitedUntil = 2000000` ms, i.e. any call made before that instant is
inside the limited window) with sync enabled and idle still issues network
requests on `sync`, and returns the merged — not the input — snapshot:
`sync` never consults the rate-limit tracker. -/
theorem sync_ignores_rate_limit_cex :
    (⟨some "g1", some "tok", true, none, false,
        some 2000000⟩ : SyncState).rateLimitedUntil = some 2000000 ∧
      (SyncManager.sync ⟨some "g1", some "tok", true, none, false, some 2000000⟩
          [.success (.gist ⟨"g1", "RFCP Study Tracker - Progress Data", true,
            ⟨some ["R"], [("R", "2025-01-02")], none⟩⟩),
           .success (.gist ⟨"g1", "RFCP Study Tracker - Progress Data", true,
            ⟨some ["R"], [("R", "2025-01-02")], none⟩⟩)]
          (some ⟨some ["L"], [("L", "2025-01-01")], none⟩) "T0").trace ≠ [] ∧
      (SyncManager.sync ⟨some "g1", some "tok", true, none, false, some 2000000⟩
          [.success (.gist ⟨"g1", "RFCP Study Tracker - Progress Data", true,
            ⟨some ["R"], [("R", "2025-01-02")], none⟩⟩),
           .success (.gist ⟨"g1", "RFCP Study Tracker - Progress Data", true,
            ⟨some ["R"], [("R", "2025-01-02")], none⟩⟩)]
          (some ⟨some ["L"], [("L", "2025-01-01")], none⟩) "T0").out
        ≠ .ok (some ⟨some ["L"], [("L", "2025-01-01")], none⟩) := by
  decide

/-- C1 (amended): `sync` is gated only by `syncEnabled` and `syncInProgress`;
whenever sync is enabled and idle it issues at least one store-client request,
regardless of the recorded `rateLimitedUntil` — the rate-limit state never
short-circuits `sync`. -/
theorem sync_not_gated_by_rate_limit (st : SyncState) (tape : List HttpResp)
    (lo : Option JsSnapshot) (now : String)
    (hen : st.syncEnabled = true) (hip : st.syncInProgress = false) :
    (SyncManager.sync st tape lo now).trace ≠ [] := by
  unfold SyncManager.sync
  rw [if_neg (show ¬((!st.syncEnabled || st.syncInProgress) = true) by
    rw [hen, hip]; simp)]
  cases hf : (SyncManager.fetchRemoteProgress
      { st with syncInProgress := true } tape now).out with
  | error e =>
    simpa [hf] using fetchRemoteProgress_trace_ne { st with syncInProgress := true } tape now
  | ok rd =>
    cases hs : (SyncManager.saveRemoteProgress
        (SyncManager.fetchRemoteProgress { st with syncInProgress := true } tape now).st
        (SyncManager.fetchRemoteProgress { st with syncInProgress := true } tape now).tape
        (mergeProgress lo (some rd)) now).out with
    | error e =>
      simp only [hf, hs, ne_eq, List.append_eq_nil, not_and]
      intro hc
      exact absurd hc (fetchRemoteProgress_trace_ne _ tape now)
    | ok g =>
      simp only [hf, hs, ne_eq, List.append_eq_nil, not_and]
      intro hc
      exact absurd hc (fetchRemoteProgress_trace_ne _ tape now)

/-- Witness for C1's amended theorem at a concrete enabled, idle,
rate-limited state. -/
theorem sync_not_gated_by_rate_limit_witness :
    (SyncManager.sync ⟨some "g1", some "tok", true, none, false, some 2000000⟩
        [.success (.gist ⟨"g1", "RFCP Study Tracker - Progress Data", true,
          ⟨some ["R"], [], none⟩⟩),
         .success (.gist ⟨"g1", "RFCP Study Tracker - Progress Data", true,
          ⟨some ["R"], [], none⟩⟩)]
        (some ⟨some ["L"], [], none⟩) "T0").trace ≠ [] :=
  sync_not_gated_by_rate_limit _ _ _ "T0" rfl rfl

/-- C8: `_setRateLimited` fed the parse result of a rate-limited response with
no reset-time header leaves the recorded `resetAt` unchanged; when the header
is present and numeric, the recorded value is replaced by the header value
(seconds × 1000). -/
theorem setRateLimited_preserves_resetAt :
    (∀ (st : SyncState) (status : Nat) (msg : String),
      (SyncManager.parseRateLimitInfo status msg none).isRateLimit = true →
      (SyncManager.setRateLimited st
          (SyncManager.parseRateLimitInfo status msg none).resetDate).rateLimitedUntil
        = st.rateLimitedUntil) ∧
    (∀ (st : SyncState) (status : Nat) (msg hdr : String) (n : Nat),
      jsNumber hdr = some n →
      (SyncManager.setRateLimited st
          (SyncManager.parseRateLimitInfo status msg (some hdr)).resetDate).rateLimitedUntil
        = some ((n : Int) * 1000)) := by
  constructor
  · intro st status msg _
    rfl
  · intro st status msg hdr n hn
    have hne : ¬hdr = "" := by
      intro hh
      rw [hh] at hn
      simp [jsNumber] at hn
    simp [SyncManager.parseRateLimitInfo, SyncManager.setRateLimited, hne, hn]

/-- Witness for C8: a 403 rate-limit response without a header preserves
`resetAt = 555`; with header `"1700"` it is replaced by `1700000` ms. -/
theorem setRateLimited_preserves_resetAt_witness :
    (SyncManager.parseRateLimitInfo 403 "API rate limit exceeded" none).isRateLimit
        = true ∧
      (SyncManager.setRateLimited ⟨none, none, false, none, false, some 555⟩
          (SyncManager.parseRateLimitInfo 403 "API rate limit exceeded"
            none).resetDate).rateLimitedUntil = some 555 ∧
      (SyncManager.setRateLimited ⟨none, none, false, none, false, some 555⟩
          (SyncManager.parseRateLimitInfo 403 "API rate limit exceeded"
            (some "1700")).resetDate).rateLimitedUntil = some 1700000 :=
  ⟨by decide,
    setRateLimited_preserves_resetAt.1 ⟨none, none, false, none, false, some 555⟩
      403 "API rate limit exceeded" (by decide),
    by
      have := setRateLimited_preserves_resetAt.2
        ⟨none, none, false, none, false, some 555⟩ 403 "API rate limit exceeded"
        "1700" 1700 (by decide)
      simpa using this⟩
